import Mathlib

/-!
Verification of the Terminus core of the pldm repository
(src/platform-mc/terminus.hpp): the capability bitmask logic and the
PDR decoding and lookup pipeline. The header declares the class and gives
the body of setSupportedCommands inline; the remaining method bodies live
in a translation unit that is not part of the source tree, so they are
modelled from the specification, as marked on each definition.
All byte buffers are lists of Nat (each element a byte value), fallible
decoding returns Option, and the mutable Terminus object becomes explicit
state passing.
-/

set_option maxRecDepth 2000

namespace PldmTerminus

/-- Embeds the alias SensorAuxiliaryNames =
std::tuple of SensorId, SensorCnt and a vector of per-sub-sensor vectors of
(language tag, display name) pairs, from src/platform-mc/terminus.hpp.
Strings are modelled as byte lists. -/
structure SensorAuxiliaryNames where
  sensorId : Nat
  sensorCnt : Nat
  names : List (List (List Nat × List Nat))
  deriving DecidableEq

/-- Embeds the state of the Terminus class of src/platform-mc/terminus.hpp:
the tid, the 64-bit supported-type set (std::bitset of 64, as a Nat), the
supported-command byte table (std::vector of uint8_t), the raw PDR store
(vector of byte vectors), the onboarding-complete flag, and the decoded
auxiliary-name list sensorAuxiliaryNamesTbl. -/
structure Terminus where
  tid : Nat
  supportedTypes : Nat
  supportedCmds : List Nat
  pdrs : List (List Nat)
  initDone : Bool
  sensorAuxiliaryNamesTbl : List SensorAuxiliaryNames
  deriving DecidableEq

/-- Modelled from the spec: the constant PLDM_MAX_TYPES comes from libpldm,
which is not under src/; the spec fixes the valid type range as [0,64). -/
def PLDM_MAX_TYPES : Nat := 64

/-- Modelled from the spec: the constant PLDM_MAX_CMDS_PER_TYPE comes from
libpldm, which is not under src/; commands are 8-bit values, giving 256
commands per type. -/
def PLDM_MAX_CMDS_PER_TYPE : Nat := 256

/-- The expected capability-table size computed inside setSupportedCommands in
src/platform-mc/terminus.hpp: PLDM_MAX_TYPES * (PLDM_MAX_CMDS_PER_TYPE / 8). -/
def expectedSize : Nat := PLDM_MAX_TYPES * (PLDM_MAX_CMDS_PER_TYPE / 8)

/-- Embeds setSupportedCommands from src/platform-mc/terminus.hpp (lines
63-81): an empty buffer or one whose size differs from expectedSize is
rejected with a false result and the stored table is left untouched;
otherwise supportedCmds is resized to the input size and the whole input is
copied over it (which replaces the table with the input), with a true
result. -/
def setSupportedCommands (t : Terminus) (cmds : List Nat) : Bool × Terminus :=
  if cmds.length = 0 ∨ cmds.length ≠ expectedSize then
    (false, t)
  else
    (true, { t with supportedCmds := cmds })

/-- Modelled from the spec: the body of doesSupportType lives in the missing
translation unit. Per the spec, a type value of 64 or more returns false and
never faults; otherwise the corresponding bit of supportedTypes is
returned. -/
def doesSupportType (t : Terminus) (ty : Nat) : Bool :=
  if ty < PLDM_MAX_TYPES then t.supportedTypes.testBit ty else false

/-- Modelled from the spec: the body of doesSupportCommand lives in the
missing translation unit. Per the spec, the result is false when the type is
out of the valid range or when the byte index
type * (PLDM_MAX_CMDS_PER_TYPE / 8) + command / 8 is not a valid index into
the stored table; otherwise it is bit command % 8 of that byte,
least-significant bit first. -/
def doesSupportCommand (t : Terminus) (ty cmd : Nat) : Bool :=
  if ty < PLDM_MAX_TYPES then
    let idx := ty * (PLDM_MAX_CMDS_PER_TYPE / 8) + cmd / 8
    if idx < t.supportedCmds.length then
      Nat.testBit (t.supportedCmds.getD idx 0) (cmd % 8)
    else
      false
  else
    false

/-- Modelled from the spec: read one byte at a cursor, failing when the
cursor is past the end of the buffer; on success also return the advanced
cursor. -/
def readU8 (buf : List Nat) (off : Nat) : Option (Nat × Nat) :=
  match buf[off]? with
  | some b => some (b, off + 1)
  | none => none

/-- Modelled from the spec: read a fixed-width 16-bit little-endian integer
at a cursor. -/
def readU16 (buf : List Nat) (off : Nat) : Option (Nat × Nat) :=
  match readU8 buf off with
  | none => none
  | some (lo, o1) =>
    match readU8 buf o1 with
    | none => none
    | some (hi, o2) => some (lo + 256 * hi, o2)

/-- Modelled from the spec: read a fixed number of raw bytes, failing when
the requested range would overrun the buffer. -/
def readBytes (buf : List Nat) (off n : Nat) : Option (List Nat × Nat) :=
  if off + n ≤ buf.length then some ((buf.drop off).take n, off + n) else none

/-- Modelled from the spec: a language tag is a fixed-size code; it is
modelled as a two-byte code. -/
def readTag (buf : List Nat) (off : Nat) : Option (List Nat × Nat) :=
  readBytes buf off 2

/-- Modelled from the spec: a length-prefixed name string is one length byte
followed by that many name bytes; a length value that would overrun the
buffer fails the read. -/
def readName (buf : List Nat) (off : Nat) : Option (List Nat × Nat) :=
  match readU8 buf off with
  | none => none
  | some (len, o1) => readBytes buf o1 len

/-- Modelled from the spec: decode m (tag, name) pairs of one sub-sensor,
advancing the cursor by exactly the consumed bytes; any overrun fails the
whole decode. -/
def readPairs : Nat → List Nat → Nat → Option (List (List Nat × List Nat) × Nat)
  | 0, _, off => some ([], off)
  | m + 1, buf, off =>
    match readTag buf off with
    | none => none
    | some (tag, o1) =>
      match readName buf o1 with
      | none => none
      | some (nm, o2) =>
        match readPairs m buf o2 with
        | none => none
        | some (rest, o3) => some ((tag, nm) :: rest, o3)

/-- Modelled from the spec: decode n sub-sensors, each introduced by a
per-sub-sensor language-pair count m followed by m pairs; an overrun
anywhere fails the whole decode (whole-record-or-nothing). -/
def readSubSensors :
    Nat → List Nat → Nat → Option (List (List (List Nat × List Nat)) × Nat)
  | 0, _, off => some ([], off)
  | n + 1, buf, off =>
    match readU8 buf off with
    | none => none
    | some (m, o1) =>
      match readPairs m buf o1 with
      | none => none
      | some (ps, o2) =>
        match readSubSensors n buf o2 with
        | none => none
        | some (rest, o3) => some (ps :: rest, o3)

/-- Modelled from the spec: the record-type discriminator sits at a fixed
header offset; the minimum header is modelled as the single discriminator
byte at offset 0, and the declared length as equal to the buffer size (the
spec bounds every read by the smaller of the two). -/
def minHeaderSize : Nat := 1

/-- Modelled from the spec: the record-type tag of a sensor auxiliary-name
PDR; the numeric value comes from libpldm, which is not under src/. -/
def auxNameTag : Nat := 3

/-- Modelled from the spec: the record-type tag of a numeric-sensor PDR. -/
def numericSensorTag : Nat := 2

/-- Modelled from the spec: the record-type tag of a compact-numeric-sensor
PDR. -/
def compactNumericSensorTag : Nat := 21

/-- Modelled from the spec: the body of parseSensorAuxiliaryNamesPDR lives in
the missing translation unit. After the header it reads sensorId (16-bit),
the sub-sensor count n (8-bit), then n sub-sensors, each a pair count m and
m (tag, length-prefixed name) pairs; any count or length field that overruns
the buffer discards the whole record (none). On full success it returns the
(sensorId, n, names) value. -/
def parseSensorAuxiliaryNamesPDR (pdrData : List Nat) :
    Option SensorAuxiliaryNames :=
  match readU16 pdrData minHeaderSize with
  | none => none
  | some (sid, o1) =>
    match readU8 pdrData o1 with
    | none => none
    | some (n, o2) =>
      match readSubSensors n pdrData o2 with
      | none => none
      | some (names, _) => some ⟨sid, n, names⟩

/-- Modelled from the spec: the body of parseCompactNumericSensorNames lives
in the missing translation unit; per the spec the compact-numeric flavor of
the auxiliary-name record decodes per the same nested layout. -/
def parseCompactNumericSensorNames (pdrData : List Nat) :
    Option SensorAuxiliaryNames :=
  match readU16 pdrData minHeaderSize with
  | none => none
  | some (sid, o1) =>
    match readU8 pdrData o1 with
    | none => none
    | some (n, o2) =>
      match readSubSensors n pdrData o2 with
      | none => none
      | some (names, _) => some ⟨sid, n, names⟩

/-- Modelled from the spec: the per-record dispatch of parseTerminusPDRs
(body in the missing translation unit), restricted to its effect on the
auxiliary-name index. A record shorter than the minimum header is skipped;
an auxiliary-name record (standard or compact-numeric flavor) is decoded per
the nested layout; numeric-sensor records and unrecognized tags contribute
no index entry (the decoded numeric-sensor structures are opaque to this
core per the spec). The result is the entry the record contributes, if
any. -/
def decodeOneRecord (rec : List Nat) : Option SensorAuxiliaryNames :=
  if rec.length < minHeaderSize then none
  else if rec.getD 0 0 = auxNameTag then parseSensorAuxiliaryNamesPDR rec
  else if rec.getD 0 0 = compactNumericSensorTag then
    parseCompactNumericSensorNames rec
  else none

/-- Modelled from the spec: the body of parseTerminusPDRs lives in the
missing translation unit. It iterates every stored record exactly once, in
order, appending each successfully decoded auxiliary-name entry to the index
and skipping records that are short, unrecognized, or fail structural
validation; the capability state, the raw PDR store, the tid and the
onboarding flag are not touched, and prior index entries are kept
(append-only). -/
def parseTerminusPDRs (t : Terminus) : Terminus :=
  { t with
    sensorAuxiliaryNamesTbl :=
      t.pdrs.foldl (fun tbl rec => tbl ++ (decodeOneRecord rec).toList)
        t.sensorAuxiliaryNamesTbl }

/-- Modelled from the spec: the body of getSensorAuxiliaryNames lives in the
missing translation unit. Linear scan of sensorAuxiliaryNamesTbl returning
the first entry whose sensorId equals the requested id, or none when absent
(absence is a normal outcome). -/
def getSensorAuxiliaryNames (t : Terminus) (id : Nat) :
    Option SensorAuxiliaryNames :=
  t.sensorAuxiliaryNamesTbl.find? (fun a => a.sensorId == id)

/-- Modelled from the spec: the Terminus constructor body lives in the
missing translation unit. It stores the tid and the 64-bit supported-type
set; the command table, the PDR store and the auxiliary-name index start
empty and the onboarding flag false. -/
def Terminus.create (tid supportedPLDMTypes : Nat) : Terminus :=
  { tid := tid
    supportedTypes := supportedPLDMTypes % 2 ^ 64
    supportedCmds := []
    pdrs := []
    initDone := false
    sensorAuxiliaryNamesTbl := [] }

/-- A capability table whose only set bit is (type 3, command 10): byte index
3 * 32 + 10 / 8 = 97 holds 4 (bit 2 set), every other byte is 0, total size
expectedSize = 2048. -/
def table397 : List Nat := List.replicate 97 0 ++ 4 :: List.replicate 1950 0

/-- A terminus holding table397 as its capability table. -/
def t397 : Terminus := ⟨0, 0, table397, [], false, []⟩

/-- A well-formed auxiliary-name record for sensorId 5 with one sub-sensor
and two language pairs (en, Fan1) and (fr, Ventilateur1), as raw bytes. -/
def goodRec5 : List Nat :=
  [3, 5, 0, 1, 2,
   101, 110, 4, 70, 97, 110, 49,
   102, 114, 12, 86, 101, 110, 116, 105, 108, 97, 116, 101, 117, 114, 49]

/-- The same record shape for sensorId 5 but with its language-pair count
field set to 200, far more than the remaining bytes. -/
def badRec5 : List Nat := [3, 5, 0, 1, 200]

/-- A well-formed auxiliary-name record for sensorId 6 with one sub-sensor
and one pair (en, AB). -/
def goodRec6 : List Nat := [3, 6, 0, 1, 1, 101, 110, 2, 65, 66]

/-- The decoded entry goodRec5 yields. -/
def aux5 : SensorAuxiliaryNames :=
  ⟨5, 1,
   [[([101, 110], [70, 97, 110, 49]),
     ([102, 114], [86, 101, 110, 116, 105, 108, 97, 116, 101, 117, 114, 49])]]⟩

/-- The decoded entry goodRec6 yields. -/
def aux6 : SensorAuxiliaryNames := ⟨6, 1, [[([101, 110], [65, 66])]]⟩

/-- A terminus whose PDR store holds the overrunning record for sensor 5
followed by the good record for sensor 6. -/
def tBad : Terminus := ⟨0, 0, [], [badRec5, goodRec6], false, []⟩

/-- A terminus whose PDR store holds exactly the good record for sensor 5. -/
def tOne : Terminus := ⟨0, 0, [], [goodRec5], false, []⟩

/-- A terminus whose auxiliary-name index already holds two entries. -/
def tTwo : Terminus := ⟨0, 0, [], [], false, [aux5, aux6]⟩

example : parseSensorAuxiliaryNamesPDR goodRec5 = some aux5 := by decide
example : parseSensorAuxiliaryNamesPDR badRec5 = none := by decide
example : decodeOneRecord goodRec6 = some aux6 := by decide

/-- The compact-numeric flavor decodes by the same nested layout, so the two
decoders agree definitionally. -/
theorem parseCompactNumericSensorNames_eq :
    parseCompactNumericSensorNames = parseSensorAuxiliaryNamesPDR := rfl

/-- A successful readSubSensors of n sub-sensors returns exactly n
per-sub-sensor pair lists. -/
theorem readSubSensors_length :
    ∀ (n : Nat) (buf : List Nat) (off : Nat)
      (l : List (List (List Nat × List Nat))) (o : Nat),
      readSubSensors n buf off = some (l, o) → l.length = n := by
  intro n
  induction n with
  | zero =>
    intro buf off l o h
    simp only [readSubSensors, Option.some.injEq, Prod.mk.injEq] at h
    rw [← h.1]
    rfl
  | succ k ih =>
    intro buf off l o h
    simp only [readSubSensors] at h
    cases hu : readU8 buf off with
    | none => simp [hu] at h
    | some p =>
      obtain ⟨m, o1⟩ := p
      simp only [hu] at h
      cases hp : readPairs m buf o1 with
      | none => simp [hp] at h
      | some q =>
        obtain ⟨ps, o2⟩ := q
        simp only [hp] at h
        cases hs : readSubSensors k buf o2 with
        | none => simp [hs] at h
        | some r =>
          obtain ⟨rest, o3⟩ := r
          simp only [hs] at h
          simp only [Option.some.injEq, Prod.mk.injEq] at h
          rw [← h.1]
          simp [ih buf o2 rest o3 hs]

/-- A successful auxiliary-name decode is structurally consistent: the names
list has exactly sensorCnt elements. -/
theorem parseAux_names_length (rec : List Nat) (a : SensorAuxiliaryNames)
    (h : parseSensorAuxiliaryNamesPDR rec = some a) :
    a.names.length = a.sensorCnt := by
  simp only [parseSensorAuxiliaryNamesPDR] at h
  cases h1 : readU16 rec minHeaderSize with
  | none => simp [h1] at h
  | some p =>
    obtain ⟨sid, o1⟩ := p
    simp only [h1] at h
    cases h2 : readU8 rec o1 with
    | none => simp [h2] at h
    | some q =>
      obtain ⟨n, o2⟩ := q
      simp only [h2] at h
      cases h3 : readSubSensors n rec o2 with
      | none => simp [h3] at h
      | some r =>
        obtain ⟨names, o3⟩ := r
        simp only [h3] at h
        simp only [Option.some.injEq] at h
        rw [← h]
        exact readSubSensors_length n rec o2 names o3 h3

/-- The decode pass fold appends exactly the successfully decoded records, in
order, to whatever index it starts from. -/
theorem foldl_decode_eq (ps : List (List Nat))
    (tbl : List SensorAuxiliaryNames) :
    ps.foldl (fun tbl rec => tbl ++ (decodeOneRecord rec).toList) tbl
      = tbl ++ ps.filterMap decodeOneRecord := by
  induction ps generalizing tbl with
  | nil => simp
  | cons r rs ih =>
    simp only [List.foldl_cons, List.filterMap_cons]
    cases h : decodeOneRecord r with
    | none => simp [h, ih]
    | some a => simp [h, ih]

/-- The auxiliary-name index after a decode pass is the prior index followed
by the decoded entries of the store, in stored order. -/
theorem parseTerminusPDRs_tbl (t : Terminus) :
    (parseTerminusPDRs t).sensorAuxiliaryNamesTbl
      = t.sensorAuxiliaryNamesTbl ++ t.pdrs.filterMap decodeOneRecord :=
  foldl_decode_eq t.pdrs t.sensorAuxiliaryNamesTbl

/-- The number of decoded entries equals the number of records that decode
successfully. -/
theorem length_filterMap_decode (ps : List (List Nat)) :
    (ps.filterMap decodeOneRecord).length
      = ps.countP (fun rec => (decodeOneRecord rec).isSome) := by
  induction ps with
  | nil => rfl
  | cons r rs ih =>
    cases h : decodeOneRecord r with
    | none => simp [List.filterMap_cons, List.countP_cons, h, ih]
    | some a => simp [List.filterMap_cons, List.countP_cons, h, ih]

/-- Characterization of the first-match linear scan over an entry list: the
none result means no entry matches, and a some result is a matching entry
preceded only by non-matching ones. -/
theorem find_first_entry (l : List SensorAuxiliaryNames) (id : Nat) :
    (l.find? (fun a => a.sensorId == id) = none ↔
      ∀ a ∈ l, a.sensorId ≠ id) ∧
    (∀ a, l.find? (fun a => a.sensorId == id) = some a →
      a.sensorId = id ∧
      ∃ l1 l2, l = l1 ++ a :: l2 ∧ ∀ b ∈ l1, b.sensorId ≠ id) := by
  induction l with
  | nil => simp
  | cons x xs ih =>
    by_cases hx : x.sensorId = id
    · constructor
      · rw [List.find?_cons_of_pos _ (by simp [hx])]
        constructor
        · intro h
          exact absurd h (by simp)
        · intro hall
          exact absurd hx (hall x (by simp))
      · intro a ha
        rw [List.find?_cons_of_pos _ (by simp [hx])] at ha
        simp only [Option.some.injEq] at ha
        subst ha
        exact ⟨hx, [], xs, rfl, by simp⟩
    · constructor
      · rw [List.find?_cons_of_neg _ (by simp [hx])]
        rw [ih.1]
        constructor
        · intro hall a ha
          rcases List.mem_cons.mp ha with h | h
          · subst h; exact hx
          · exact hall a h
        · intro hall a ha
          exact hall a (List.mem_cons.mpr (Or.inr ha))
      · intro a ha
        rw [List.find?_cons_of_neg _ (by simp [hx])] at ha
        obtain ⟨h1, l1, l2, h2, h3⟩ := ih.2 a ha
        refine ⟨h1, x :: l1, l2, by rw [h2]; rfl, ?_⟩
        intro b hb
        rcases List.mem_cons.mp hb with h | h
        · subst h; exact hx
        · exact h3 b h

/-- The concrete capability table has the full expected size of 2048
bytes. -/
theorem table397_length : table397.length = 2048 := by
  rw [table397, List.length_append, List.length_cons, List.length_replicate,
    List.length_replicate]

/-- The capability table stored in t397 has 2048 bytes. -/
theorem t397_supportedCmds_length : t397.supportedCmds.length = 2048 :=
  table397_length

/-- Byte 97 of the concrete capability table holds 4 (bit 2 set). -/
theorem table397_getD_97 : table397.getD 97 0 = 4 := by
  rw [table397, List.getD_append_right _ _ _ _ (by rw [List.length_replicate])]
  rw [List.length_replicate]
  norm_num

/-- Byte 98 of the concrete capability table holds 0. -/
theorem table397_getD_98 : table397.getD 98 0 = 0 := by
  rw [table397,
    List.getD_append_right _ _ _ _ (by rw [List.length_replicate]; omega)]
  rw [List.length_replicate]
  norm_num

/-- C5: for every 8-bit type value, doesSupportType returns false whenever
the type is 64 or more, regardless of table contents and without faulting,
and for a type below 64 it returns exactly bit number type of the 64-bit
supportedTypes set. -/
theorem doesSupportType_putative (t : Terminus) (ty : Nat) (h8 : ty < 256) :
    (64 ≤ ty → doesSupportType t ty = false) ∧
    (ty < 64 → doesSupportType t ty = t.supportedTypes.testBit ty) := by
  constructor
  · intro h
    rw [doesSupportType, if_neg]
    rw [PLDM_MAX_TYPES]
    omega
  · intro h
    rw [doesSupportType, if_pos]
    rw [PLDM_MAX_TYPES]
    omega

/-- C5 witness: at type 64 with an all-ones type set the query is false. -/
theorem doesSupportType_putative_witness :
    doesSupportType (Terminus.create 1 (2 ^ 64 - 1)) 64 = false :=
  (doesSupportType_putative (Terminus.create 1 (2 ^ 64 - 1)) 64
    (by decide)).1 (by decide)

/-- C2: doesSupportCommand returns false when the type is 64 or more or when
the byte index type * (PLDM_MAX_CMDS_PER_TYPE / 8) + command / 8 is not
below the stored table size, and otherwise returns bit command % 8
(least-significant-bit first) of the byte at that index; in a table whose
only set bit is (type 3, command 10), querying (3,10) is true while (3,9)
and (3,18) are false. -/
theorem doesSupportCommand_putative :
    (∀ (t : Terminus) (ty cmd : Nat), 64 ≤ ty →
      doesSupportCommand t ty cmd = false) ∧
    (∀ (t : Terminus) (ty cmd : Nat), ty < 64 →
      t.supportedCmds.length ≤ ty * (PLDM_MAX_CMDS_PER_TYPE / 8) + cmd / 8 →
      doesSupportCommand t ty cmd = false) ∧
    (∀ (t : Terminus) (ty cmd : Nat), ty < 64 →
      ty * (PLDM_MAX_CMDS_PER_TYPE / 8) + cmd / 8 < t.supportedCmds.length →
      doesSupportCommand t ty cmd =
        Nat.testBit
          (t.supportedCmds.getD (ty * (PLDM_MAX_CMDS_PER_TYPE / 8) + cmd / 8) 0)
          (cmd % 8)) ∧
    (doesSupportCommand t397 3 10 = true ∧
      doesSupportCommand t397 3 9 = false ∧
      doesSupportCommand t397 3 18 = false) := by
  have g1 : ∀ (t : Terminus) (ty cmd : Nat), 64 ≤ ty →
      doesSupportCommand t ty cmd = false := by
    intro t ty cmd h
    rw [doesSupportCommand, if_neg]
    rw [PLDM_MAX_TYPES]
    omega
  have g2 : ∀ (t : Terminus) (ty cmd : Nat), ty < 64 →
      t.supportedCmds.length ≤ ty * (PLDM_MAX_CMDS_PER_TYPE / 8) + cmd / 8 →
      doesSupportCommand t ty cmd = false := by
    intro t ty cmd h hidx
    rw [doesSupportCommand, if_pos (by rw [PLDM_MAX_TYPES]; omega)]
    simp only
    rw [if_neg (by omega)]
  have g3 : ∀ (t : Terminus) (ty cmd : Nat), ty < 64 →
      ty * (PLDM_MAX_CMDS_PER_TYPE / 8) + cmd / 8 < t.supportedCmds.length →
      doesSupportCommand t ty cmd =
        Nat.testBit
          (t.supportedCmds.getD (ty * (PLDM_MAX_CMDS_PER_TYPE / 8) + cmd / 8) 0)
          (cmd % 8) := by
    intro t ty cmd h hidx
    rw [doesSupportCommand, if_pos (by rw [PLDM_MAX_TYPES]; omega)]
    simp only
    rw [if_pos hidx]
  refine ⟨g1, g2, g3, ?_, ?_, ?_⟩
  · rw [g3 t397 3 10 (by decide)
        (by rw [t397_supportedCmds_length]; decide),
      show t397.supportedCmds.getD
          (3 * (PLDM_MAX_CMDS_PER_TYPE / 8) + 10 / 8) 0 = 4
        from table397_getD_97]
    decide
  · rw [g3 t397 3 9 (by decide)
        (by rw [t397_supportedCmds_length]; decide),
      show t397.supportedCmds.getD
          (3 * (PLDM_MAX_CMDS_PER_TYPE / 8) + 9 / 8) 0 = 4
        from table397_getD_97]
    decide
  · rw [g3 t397 3 18 (by decide)
        (by rw [t397_supportedCmds_length]; decide),
      show t397.supportedCmds.getD
          (3 * (PLDM_MAX_CMDS_PER_TYPE / 8) + 18 / 8) 0 = 0
        from table397_getD_98]
    decide

/-- C2 witness: the range guard, the bounds guard and the bit read each at a
concrete input. -/
theorem doesSupportCommand_putative_witness :
    doesSupportCommand (Terminus.create 0 0) 64 0 = false ∧
    doesSupportCommand (Terminus.create 0 0) 3 10 = false ∧
    doesSupportCommand t397 3 10 =
      Nat.testBit
        (t397.supportedCmds.getD (3 * (PLDM_MAX_CMDS_PER_TYPE / 8) + 10 / 8) 0)
        (10 % 8) :=
  ⟨doesSupportCommand_putative.1 (Terminus.create 0 0) 64 0 (by decide),
   doesSupportCommand_putative.2.1 (Terminus.create 0 0) 3 10 (by decide)
     (by decide),
   doesSupportCommand_putative.2.2.1 t397 3 10 (by decide)
     (by rw [t397_supportedCmds_length]; decide)⟩

/-- C3: setSupportedCommands succeeds exactly on a buffer of exactly
PLDM_MAX_TYPES * (PLDM_MAX_CMDS_PER_TYPE / 8) bytes (necessarily non-empty);
on any size mismatch it returns false and leaves the stored table
byte-for-byte unchanged, and on success it replaces the whole table with the
input. -/
theorem setSupportedCommands_putative (t : Terminus) (cmds : List Nat) :
    ((setSupportedCommands t cmds).1 = true ↔ cmds.length = expectedSize) ∧
    ((setSupportedCommands t cmds).1 = false →
      (setSupportedCommands t cmds).2.supportedCmds = t.supportedCmds) ∧
    ((setSupportedCommands t cmds).1 = true →
      (setSupportedCommands t cmds).2.supportedCmds = cmds) := by
  simp only [setSupportedCommands]
  split
  · rename_i hcond
    refine ⟨⟨fun hfalse => Bool.noConfusion hfalse, ?_⟩,
      fun _ => rfl, fun htrue => Bool.noConfusion htrue⟩
    intro hlen
    exact absurd hcond (by rw [hlen]; decide)
  · rename_i hcond
    rw [not_or, not_not] at hcond
    exact ⟨⟨fun _ => hcond.2, fun _ => rfl⟩,
      fun hfalse => Bool.noConfusion hfalse, fun _ => rfl⟩

/-- C3 witness: a full-size buffer is accepted and installed. -/
theorem setSupportedCommands_putative_witness :
    (setSupportedCommands (Terminus.create 0 0)
        (List.replicate 2048 7)).2.supportedCmds = List.replicate 2048 7 :=
  (setSupportedCommands_putative (Terminus.create 0 0)
      (List.replicate 2048 7)).2.2
    ((setSupportedCommands_putative (Terminus.create 0 0)
        (List.replicate 2048 7)).1.mpr
      (by rw [List.length_replicate]; decide))

/-- C9: setSupportedCommands modifies only the supportedCmds field; for every
input buffer, valid or invalid, the tid, onboarding flag, supportedTypes,
PDR store and auxiliary-name list are unchanged. -/
theorem setSupportedCommands_frame (t : Terminus) (cmds : List Nat) :
    (setSupportedCommands t cmds).2.tid = t.tid ∧
    (setSupportedCommands t cmds).2.initDone = t.initDone ∧
    (setSupportedCommands t cmds).2.supportedTypes = t.supportedTypes ∧
    (setSupportedCommands t cmds).2.pdrs = t.pdrs ∧
    (setSupportedCommands t cmds).2.sensorAuxiliaryNamesTbl
      = t.sensorAuxiliaryNamesTbl := by
  simp only [setSupportedCommands]
  split <;> exact ⟨rfl, rfl, rfl, rfl, rfl⟩

/-- C8: the capability-table size invariant: setSupportedCommands either
leaves supportedCmds exactly as it was or leaves it with exactly
PLDM_MAX_TYPES * (PLDM_MAX_CMDS_PER_TYPE / 8) bytes, a decode pass never
touches it, and construction starts it empty, so no operation leaves the
table partially applied at any other size. -/
theorem supportedCmds_size_invariant :
    (∀ (t : Terminus) (cmds : List Nat),
      (setSupportedCommands t cmds).2.supportedCmds = t.supportedCmds ∨
      (setSupportedCommands t cmds).2.supportedCmds.length = expectedSize) ∧
    (∀ t : Terminus, (parseTerminusPDRs t).supportedCmds = t.supportedCmds) ∧
    (∀ tid types : Nat, (Terminus.create tid types).supportedCmds = []) := by
  refine ⟨?_, fun t => rfl, fun tid types => rfl⟩
  intro t cmds
  simp only [setSupportedCommands]
  split
  · left
    rfl
  · rename_i hcond
    rw [not_or, not_not] at hcond
    right
    exact hcond.2

/-- C10: a decode pass never modifies the raw PDR store it reads, nor the
tid, nor the onboarding flag: each is identical to its value before the
pass. -/
theorem parseTerminusPDRs_frame (t : Terminus) :
    (parseTerminusPDRs t).pdrs = t.pdrs ∧
    (parseTerminusPDRs t).tid = t.tid ∧
    (parseTerminusPDRs t).initDone = t.initDone :=
  ⟨rfl, rfl, rfl⟩

/-- C4: parseTerminusPDRs visits every stored record exactly once and always
runs to completion: the resulting index is the prior index followed by
exactly the successfully decoded records in stored order, its length grows
by the number of records that decode, a record shorter than the minimum
header or with an unrecognized type tag contributes nothing (and no record
aborts the pass), and an empty PDR collection yields an empty
auxiliary-name index. -/
theorem parseTerminusPDRs_total_spec :
    (∀ t : Terminus,
      (parseTerminusPDRs t).sensorAuxiliaryNamesTbl
        = t.sensorAuxiliaryNamesTbl ++ t.pdrs.filterMap decodeOneRecord) ∧
    (∀ t : Terminus,
      (parseTerminusPDRs t).sensorAuxiliaryNamesTbl.length
        = t.sensorAuxiliaryNamesTbl.length
          + t.pdrs.countP (fun rec => (decodeOneRecord rec).isSome)) ∧
    (∀ rec : List Nat, rec.length < minHeaderSize →
      decodeOneRecord rec = none) ∧
    (∀ rec : List Nat, rec.getD 0 0 ≠ auxNameTag →
      rec.getD 0 0 ≠ compactNumericSensorTag → decodeOneRecord rec = none) ∧
    (∀ t : Terminus, t.pdrs = [] → t.sensorAuxiliaryNamesTbl = [] →
      (parseTerminusPDRs t).sensorAuxiliaryNamesTbl = []) := by
  refine ⟨parseTerminusPDRs_tbl, ?_, ?_, ?_, ?_⟩
  · intro t
    rw [parseTerminusPDRs_tbl, List.length_append, length_filterMap_decode]
  · intro rec h
    rw [decodeOneRecord, if_pos h]
  · intro rec h1 h2
    rw [decodeOneRecord, if_neg h1, if_neg h2, ite_self]
  · intro t hp ht
    rw [parseTerminusPDRs_tbl, hp, ht]
    rfl

/-- C4 witness: the skip rules and the empty-store case at concrete
inputs. -/
theorem parseTerminusPDRs_total_spec_witness :
    decodeOneRecord [] = none ∧
    decodeOneRecord [9, 9] = none ∧
    (parseTerminusPDRs (Terminus.create 0 0)).sensorAuxiliaryNamesTbl = [] :=
  ⟨parseTerminusPDRs_total_spec.2.2.1 [] (by decide),
   parseTerminusPDRs_total_spec.2.2.2.1 [9, 9] (by decide) (by decide),
   parseTerminusPDRs_total_spec.2.2.2.2 (Terminus.create 0 0) rfl rfl⟩

/-- C1: an auxiliary-name record in which a nested count or name-length
field overruns the available bytes is discarded whole: it appends nothing
(the pass just moves on to the remaining records), every entry that does
enter an initially empty index comes from a record that decoded fully and
has a names list of exactly sensorCnt elements, and for the concrete store
holding the overrunning record for sensor 5 followed by a good record for
sensor 6, lookup of 5 is not-found while 6 is found. -/
theorem auxNames_discard_spec :
    (∀ (rec : List Nat) (a : SensorAuxiliaryNames),
      decodeOneRecord rec = some a → a.names.length = a.sensorCnt) ∧
    (∀ (t : Terminus) (rec : List Nat) (rest : List (List Nat)),
      t.pdrs = rec :: rest → decodeOneRecord rec = none →
      (parseTerminusPDRs t).sensorAuxiliaryNamesTbl
        = t.sensorAuxiliaryNamesTbl ++ rest.filterMap decodeOneRecord) ∧
    (∀ t : Terminus, t.sensorAuxiliaryNamesTbl = [] →
      ∀ a ∈ (parseTerminusPDRs t).sensorAuxiliaryNamesTbl,
        ∃ rec ∈ t.pdrs, decodeOneRecord rec = some a) ∧
    (getSensorAuxiliaryNames (parseTerminusPDRs tBad) 5 = none ∧
      getSensorAuxiliaryNames (parseTerminusPDRs tBad) 6 = some aux6) := by
  refine ⟨?_, ?_, ?_, by decide, by decide⟩
  · intro rec a h
    rw [decodeOneRecord] at h
    split at h
    · exact absurd h (by simp)
    · split at h
      · exact parseAux_names_length rec a h
      · split at h
        · rw [parseCompactNumericSensorNames_eq] at h
          exact parseAux_names_length rec a h
        · exact absurd h (by simp)
  · intro t rec rest hp hd
    rw [parseTerminusPDRs_tbl, hp, List.filterMap_cons, hd]
  · intro t ht a ha
    rw [parseTerminusPDRs_tbl, ht, List.nil_append] at ha
    obtain ⟨rec, hrec, hdec⟩ := List.mem_filterMap.mp ha
    exact ⟨rec, hrec, hdec⟩

/-- C1 witness: the discard rule applied to the concrete overrunning record,
and structural consistency of a concrete decoded entry. -/
theorem auxNames_discard_spec_witness :
    aux5.names.length = aux5.sensorCnt ∧
    (parseTerminusPDRs tBad).sensorAuxiliaryNamesTbl
      = tBad.sensorAuxiliaryNamesTbl ++ [goodRec6].filterMap decodeOneRecord :=
  ⟨auxNames_discard_spec.1 goodRec5 aux5 (by decide),
   auxNames_discard_spec.2.1 tBad badRec5 [goodRec6] rfl (by decide)⟩

/-- C6: getSensorAuxiliaryNames returns the first stored entry whose
sensorId equals the requested id, scanning in stored order, and an explicit
not-found result exactly when no entry matches; absence is a normal outcome,
not a fault. -/
theorem getSensorAuxiliaryNames_spec (t : Terminus) (id : Nat) :
    (getSensorAuxiliaryNames t id = none ↔
      ∀ a ∈ t.sensorAuxiliaryNamesTbl, a.sensorId ≠ id) ∧
    (∀ a, getSensorAuxiliaryNames t id = some a →
      a.sensorId = id ∧
      ∃ l1 l2, t.sensorAuxiliaryNamesTbl = l1 ++ a :: l2 ∧
        ∀ b ∈ l1, b.sensorId ≠ id) := by
  rw [getSensorAuxiliaryNames]
  exact find_first_entry t.sensorAuxiliaryNamesTbl id

/-- C6 witness: lookup of sensor 5 in a two-entry index returns the first
entry, preceded by no matching entry. -/
theorem getSensorAuxiliaryNames_spec_witness :
    aux5.sensorId = 5 ∧
    ∃ l1 l2, tTwo.sensorAuxiliaryNamesTbl = l1 ++ aux5 :: l2 ∧
      ∀ b ∈ l1, b.sensorId ≠ 5 :=
  (getSensorAuxiliaryNames_spec tTwo 5).2 aux5 (by decide)

/-- C7: running the decode pass twice over an unchanged PDR store leaves
supportedTypes and supportedCmds unchanged by both passes, and appends a
second copy of every decoded auxiliary-name entry; concretely, a store with
one good record for sensor 5 ends with two index entries of sensorId 5. -/
theorem parseTerminusPDRs_twice_spec :
    (∀ t : Terminus,
      (parseTerminusPDRs t).supportedTypes = t.supportedTypes ∧
      (parseTerminusPDRs t).supportedCmds = t.supportedCmds ∧
      (parseTerminusPDRs (parseTerminusPDRs t)).supportedTypes
        = t.supportedTypes ∧
      (parseTerminusPDRs (parseTerminusPDRs t)).supportedCmds
        = t.supportedCmds ∧
      (parseTerminusPDRs (parseTerminusPDRs t)).sensorAuxiliaryNamesTbl
        = t.sensorAuxiliaryNamesTbl ++ t.pdrs.filterMap decodeOneRecord
            ++ t.pdrs.filterMap decodeOneRecord) ∧
    ((parseTerminusPDRs (parseTerminusPDRs tOne)).sensorAuxiliaryNamesTbl
        = [aux5, aux5] ∧
      aux5.sensorId = 5) := by
  refine ⟨?_, by decide, by decide⟩
  intro t
  refine ⟨rfl, rfl, rfl, rfl, ?_⟩
  rw [parseTerminusPDRs_tbl, parseTerminusPDRs_tbl]
  rfl

end PldmTerminus
